import Mathlib

/-!
Verification development for the FairPlay pickup-sports app.

The definitions below are a shallow embedding of the TypeScript source:
  - `src/lib/types.ts`            — data model and constants
  - `src/lib/geolocation.ts`      — reliability penalty
  - `src/lib/elo.ts`              — Elo rating engine
  - `src/lib/firebase/firestore.ts` — game lifecycle operations
  - `src/components/games/ScoreSubmission.tsx` — score confirm handler
  - `src/app/games/[id]/page.tsx` — join gating in the game page

Numbers: JS numbers that always hold integers are modelled as `ℤ`;
scores passed through validation are `ℚ` (the source checks
`Number.isInteger`); the Elo logistic expectation is modelled over `ℝ`
(`Math.pow(10, x)` becomes real exponentiation).  `Math.round x` is
`round x = ⌊x + 1/2⌋`, which matches JS rounding on halves toward +∞.
Firestore documents become finite maps `String → Option _`; `updateDoc`
on an absent document rejects, which the embedding reports as an error.
Instants are milliseconds since the epoch (`ℤ`); adding calendar days
via `Date.setDate` is modelled as adding multiples of 86,400,000 ms.
-/

namespace FairPlay

/-- `Sport` from `types.ts`. -/
inductive Sport
  | basketball
  | soccer
deriving DecidableEq, Repr

/-- `SkillLevel` from `types.ts`. -/
inductive SkillLevel
  | casual
  | competitive
deriving DecidableEq, Repr

/-- `GameStatus` from `types.ts`. -/
inductive GameStatus
  | «open»
  | in_progress
  | pending_results
  | completed
  | cancelled
deriving DecidableEq, Repr

/-- `RecurrenceFrequency` from `types.ts`. -/
inductive RecurrenceFrequency
  | none
  | weekly
  | biweekly
deriving DecidableEq, Repr

/-- `GameLocation` from `types.ts`. -/
structure GameLocation where
  lat : ℚ
  lng : ℚ
  address : String
  name : String
deriving DecidableEq, Repr

/-- `GameResults` from `types.ts`. -/
structure GameResults where
  team1 : List String
  team2 : List String
  team1Score : ℚ
  team2Score : ℚ
  confirmedBy : List String
deriving DecidableEq, Repr

/-- `Recurrence` from `types.ts`. -/
structure Recurrence where
  frequency : RecurrenceFrequency
  dayOfWeek : ℤ
  parentGameId : Option String
deriving DecidableEq, Repr

/-- `Game` from `types.ts` (`startTime`/`createdAt` in epoch milliseconds). -/
structure Game where
  gameId : String
  hostId : String
  sport : Sport
  location : GameLocation
  startTime : ℤ
  duration : ℤ
  maxPlayers : ℤ
  skillLevel : SkillLevel
  minElo : Option ℤ
  players : List String
  checkedIn : List String
  status : GameStatus
  results : Option GameResults
  recurrence : Option Recurrence
  createdAt : ℤ
deriving DecidableEq, Repr

/-- `UserSports` from `types.ts`: per-sport Elo ratings. -/
structure UserSports where
  basketball : ℤ
  soccer : ℤ
deriving DecidableEq, Repr

/-- Field access `sports[sport]`. -/
def UserSports.get (s : UserSports) : Sport → ℤ
  | .basketball => s.basketball
  | .soccer => s.soccer

/-- Field write `sports.<sport> = v`. -/
def UserSports.set (s : UserSports) : Sport → ℤ → UserSports
  | .basketball, v => { s with basketball := v }
  | .soccer, v => { s with soccer := v }

/-- `User` from `types.ts` (fields used by the lifecycle engine). -/
structure User where
  uid : String
  displayName : String
  sports : UserSports
  reliabilityScore : ℤ
  gamesPlayed : ℤ
  gamesAttended : ℤ
deriving DecidableEq, Repr

/-- `ELO_K_FACTOR` from `types.ts`. -/
def ELO_K_FACTOR : ℝ := 32

/-- `NO_SHOW_PENALTY_MULTIPLIER` from `types.ts`. -/
def NO_SHOW_PENALTY_MULTIPLIER : ℚ := 0.95

/-- `calculateReliabilityPenalty` from `geolocation.ts`:
`Math.round(currentScore * penaltyMultiplier)`; reliability scores are
integers 0–100, so `currentScore : ℤ`. -/
def calculateReliabilityPenalty (currentScore : ℤ) (penaltyMultiplier : ℚ) : ℤ :=
  round ((currentScore : ℚ) * penaltyMultiplier)

/-- `calculateExpectedScore` from `elo.ts`:
`1 / (1 + Math.pow(10, (opponentElo - playerElo) / 400))`. -/
noncomputable def calculateExpectedScore (playerElo opponentElo : ℝ) : ℝ :=
  1 / (1 + (10 : ℝ) ^ ((opponentElo - playerElo) / 400))

/-- `calculateNewElo` from `elo.ts`:
`Math.round(currentElo + kFactor * (actualScore - expectedScore))`.
The source defaults `kFactor` to `ELO_K_FACTOR`; call sites pass it. -/
noncomputable def calculateNewElo (currentElo expectedScore actualScore kFactor : ℝ) : ℤ :=
  round (currentElo + kFactor * (actualScore - expectedScore))

/-- `calculateTeamAverageElo` from `elo.ts`: rounded mean, `0` for empty. -/
def calculateTeamAverageElo (teamElos : List ℤ) : ℤ :=
  if teamElos.length = 0 then 0
  else round ((teamElos.sum : ℚ) / (teamElos.length : ℚ))

/-- `processGameResults` from `elo.ts`.  Maps player→Elo become
association lists; the returned map iterates team-1 entries then team-2
entries (JS `Map` preserves insertion order). -/
noncomputable def processGameResults (team1Elos team2Elos : List (String × ℤ))
    (team1Score team2Score : ℚ) : List (String × ℤ) :=
  let team1Avg := calculateTeamAverageElo (team1Elos.map (·.2))
  let team2Avg := calculateTeamAverageElo (team2Elos.map (·.2))
  let actuals : ℝ × ℝ :=
    if team1Score > team2Score then (1, 0)
    else if team1Score < team2Score then (0, 1)
    else (1/2, 1/2)
  (team1Elos.map fun pe =>
    (pe.1, calculateNewElo (pe.2 : ℝ) (calculateExpectedScore (pe.2 : ℝ) (team2Avg : ℝ))
      actuals.1 ELO_K_FACTOR)) ++
  (team2Elos.map fun pe =>
    (pe.1, calculateNewElo (pe.2 : ℝ) (calculateExpectedScore (pe.2 : ℝ) (team1Avg : ℝ))
      actuals.2 ELO_K_FACTOR))

/-- `getEloTier` from `elo.ts`. -/
def getEloTier (elo : ℤ) : String :=
  if elo < 1000 then "Bronze"
  else if elo < 1200 then "Silver"
  else if elo < 1400 then "Gold"
  else if elo < 1600 then "Platinum"
  else if elo < 1800 then "Diamond"
  else if elo < 2000 then "Master"
  else "Grandmaster"

/-! ## Firestore state and lifecycle operations (`firestore.ts`) -/

/-- The two Firestore collections the lifecycle engine touches. -/
structure DBState where
  games : String → Option Game
  users : String → Option User

/-- Errors thrown by the lifecycle operations.  The source throws
`Error` with a message; each constructor names one `throw` site, plus
`updateMissingDoc` for Firestore rejecting `updateDoc`/`transaction.update`
on an absent document. -/
inductive FsError
  | updateMissingDoc
  | gameNotFound
  | mustBePlayerToCheckIn
  | checkInOnlyWhenOpen
  | scoresOnlyWhenInProgress
  | playerNotInGame (playerId : String)
  | scoresMustBeNonNegative
  | scoresMustBeWholeNumbers
  | notPendingResultConfirmation
  | onlyPlayersCanConfirm
  | alreadyConfirmed
  | playerProfileNotFound (playerId : String)
deriving DecidableEq, Repr

/-- Firestore `arrayUnion`: set-union append. -/
def arrayUnion (xs : List String) (x : String) : List String :=
  if x ∈ xs then xs else xs ++ [x]

/-- Firestore `arrayRemove`: removes every occurrence. -/
def arrayRemove (xs : List String) (x : String) : List String :=
  xs.filter (· ≠ x)

/-- Replace the game stored under `gameId`. -/
def DBState.setGame (st : DBState) (gameId : String) (g : Game) : DBState :=
  { st with games := fun i => if i = gameId then some g else st.games i }

/-- `joinGame` from `firestore.ts`: a single `updateDoc` with
`players: arrayUnion(userId)` — no status, capacity or rating guard. -/
def joinGame (st : DBState) (gameId userId : String) : Except FsError DBState :=
  match st.games gameId with
  | none => .error .updateMissingDoc
  | some g => .ok (st.setGame gameId { g with players := arrayUnion g.players userId })

/-- `leaveGame` from `firestore.ts`: a single `updateDoc` with
`players: arrayRemove(userId)`; `checkedIn` is left untouched. -/
def leaveGame (st : DBState) (gameId userId : String) : Except FsError DBState :=
  match st.games gameId with
  | none => .error .updateMissingDoc
  | some g => .ok (st.setGame gameId { g with players := arrayRemove g.players userId })

/-- `checkInToGame` from `firestore.ts`: requires the game to exist, the
caller to be a joined player, and status `open`; then unions into
`checkedIn`. -/
def checkInToGame (st : DBState) (gameId userId : String) : Except FsError DBState :=
  match st.games gameId with
  | none => .error .gameNotFound
  | some g =>
    if userId ∉ g.players then .error .mustBePlayerToCheckIn
    else if g.status ≠ .«open» then .error .checkInOnlyWhenOpen
    else .ok (st.setGame gameId { g with checkedIn := arrayUnion g.checkedIn userId })

/-- `updateGameStatus` from `firestore.ts`: unconditional status write. -/
def updateGameStatus (st : DBState) (gameId : String) (status : GameStatus) :
    Except FsError DBState :=
  match st.games gameId with
  | none => .error .updateMissingDoc
  | some g => .ok (st.setGame gameId { g with status := status })

/-- `completeGame` from `firestore.ts`. -/
def completeGame (st : DBState) (gameId : String) : Except FsError DBState :=
  updateGameStatus st gameId .completed

/-- `cancelGame` from `firestore.ts`. -/
def cancelGame (st : DBState) (gameId : String) : Except FsError DBState :=
  updateGameStatus st gameId .cancelled

/-- `SubmitScoreInput` from `types.ts`. -/
structure SubmitScoreInput where
  team1 : List String
  team2 : List String
  team1Score : ℚ
  team2Score : ℚ
deriving DecidableEq, Repr

/-- `submitGameResults` from `firestore.ts`: requires status
`in_progress`, every listed player a joined player, scores non-negative
integers; writes the results with `confirmedBy := []` and moves to
`pending_results`.  It performs no non-emptiness or disjointness check
on the teams. -/
def submitGameResults (st : DBState) (gameId : String) (results : SubmitScoreInput) :
    Except FsError DBState :=
  match st.games gameId with
  | none => .error .gameNotFound
  | some g =>
    if g.status ≠ .in_progress then .error .scoresOnlyWhenInProgress
    else
      match (results.team1 ++ results.team2).find? (fun p => !g.players.contains p) with
      | some p => .error (.playerNotInGame p)
      | none =>
        if results.team1Score < 0 ∨ results.team2Score < 0 then
          .error .scoresMustBeNonNegative
        else if results.team1Score.den ≠ 1 ∨ results.team2Score.den ≠ 1 then
          .error .scoresMustBeWholeNumbers
        else
          .ok (st.setGame gameId
            { g with
              results := some
                { team1 := results.team1
                  team2 := results.team2
                  team1Score := results.team1Score
                  team2Score := results.team2Score
                  confirmedBy := [] }
              status := .pending_results })

/-- `confirmGameResults` from `firestore.ts`: requires status
`pending_results`, the caller listed in `results.team1 ∪ results.team2`
and not already in `confirmedBy`; then unions the caller into
`results.confirmedBy`.  When `results` is absent the participant check
has already failed, so mapping over the option is exact. -/
def confirmGameResults (st : DBState) (gameId userId : String) : Except FsError DBState :=
  match st.games gameId with
  | none => .error .gameNotFound
  | some g =>
    if g.status ≠ .pending_results then .error .notPendingResultConfirmation
    else
      let allResultPlayers :=
        ((g.results.map (·.team1)).getD []) ++ ((g.results.map (·.team2)).getD [])
      if userId ∉ allResultPlayers then .error .onlyPlayersCanConfirm
      else if ((g.results.map (·.confirmedBy)).getD []).contains userId then
        .error .alreadyConfirmed
      else
        .ok (st.setGame gameId
          { g with results :=
              g.results.map fun r =>
                { r with confirmedBy := arrayUnion r.confirmedBy userId } })

/-- The read phase of the transactional Elo update: `transaction.get`
on every listed player, failing on the first absent profile. -/
def readPlayers (users : String → Option User) : List String →
    Except FsError (List (String × User))
  | [] => .ok []
  | p :: ps =>
    match users p with
    | none => .error (.playerProfileNotFound p)
    | some u => (readPlayers users ps).map (fun l => (p, u) :: l)

/-- One `transaction.update` of the write phase: sets
`sports.<sport> = newElo` and increments `gamesPlayed`/`gamesAttended`,
computing from the profile read earlier in the transaction. -/
def writeRating (playerData : List (String × User)) (sport : Sport)
    (us : String → Option User) (entry : String × ℤ) : String → Option User :=
  fun uid =>
    if uid = entry.1 then
      match (playerData.find? (fun pu => pu.1 = entry.1)).map (·.2) with
      | some u => some
          { u with
            sports := u.sports.set sport entry.2
            gamesPlayed := u.gamesPlayed + 1
            gamesAttended := u.gamesAttended + 1 }
      | none => us uid
    else us uid

/-- `processEloUpdatesTransactional` from `firestore.ts`: inside one
transaction, reads every participant's profile, partitions the Elo maps
by `team1.includes`, applies `calculateResults`, writes every new
rating with the counter increments, and marks the game `completed`.
There is no re-check of the game's status inside the transaction. -/
def processEloUpdatesTransactional (st : DBState) (gameId : String)
    (team1 team2 : List String) (team1Score team2Score : ℚ) (sport : Sport)
    (calculateResults :
      List (String × ℤ) → List (String × ℤ) → ℚ → ℚ → List (String × ℤ)) :
    Except FsError DBState :=
  match readPlayers st.users (team1 ++ team2) with
  | .error e => .error e
  | .ok playerData =>
    let team1Elos := (playerData.filter (fun pu => team1.contains pu.1)).map
      (fun pu => (pu.1, pu.2.sports.get sport))
    let team2Elos := (playerData.filter (fun pu => !team1.contains pu.1)).map
      (fun pu => (pu.1, pu.2.sports.get sport))
    let newRatings := calculateResults team1Elos team2Elos team1Score team2Score
    match st.games gameId with
    | none => .error .updateMissingDoc
    | some g =>
      .ok { games := fun i => if i = gameId then some { g with status := .completed }
                              else st.games i
            users := newRatings.foldl (writeRating playerData sport) st.users }

/-- `updateUserReliability` from `firestore.ts`. -/
def updateUserReliability (st : DBState) (userId : String) (newScore : ℤ) :
    Except FsError DBState :=
  match st.users userId with
  | none => .error .updateMissingDoc
  | some u =>
    .ok { st with users := fun i => if i = userId then some { u with reliabilityScore := newScore }
                                    else st.users i }

/-- `incrementUserGames` from `firestore.ts`: increments `gamesPlayed`,
and `gamesAttended` only when `attended`; silently no-ops when the user
document is absent. -/
def incrementUserGames (st : DBState) (userId : String) (attended : Bool) :
    Except FsError DBState :=
  match st.users userId with
  | none => .ok st
  | some u =>
    .ok { st with users := fun i =>
            if i = userId then
              some { u with
                     gamesPlayed := u.gamesPlayed + 1
                     gamesAttended :=
                       if attended then u.gamesAttended + 1 else u.gamesAttended }
            else st.users i }

/-! ## Recurrence (`createGame`, `createNextRecurringGame` from `firestore.ts`) -/

/-- `CreateGameInput` from `types.ts`. -/
structure CreateGameInput where
  sport : Sport
  location : GameLocation
  startTime : ℤ
  duration : ℤ
  maxPlayers : ℤ
  skillLevel : SkillLevel
  minElo : Option ℤ
  recurrence : Option Recurrence
deriving DecidableEq, Repr

/-- One calendar day in milliseconds (`Date.setDate` from the source is
modelled as whole-day arithmetic). -/
def MS_PER_DAY : ℤ := 86400000

/-- `createGame` from `firestore.ts`: fresh game in `open` with the host
auto-joined and an empty check-in set; the recurrence descriptor is
stored only when its frequency is not `none`. -/
def createGame (hostId : String) (input : CreateGameInput) (newGameId : String)
    (now : ℤ) : Game :=
  { gameId := newGameId
    hostId := hostId
    sport := input.sport
    location := input.location
    startTime := input.startTime
    duration := input.duration
    maxPlayers := input.maxPlayers
    skillLevel := input.skillLevel
    minElo := input.minElo
    players := [hostId]
    checkedIn := []
    status := .«open»
    results := none
    recurrence :=
      match input.recurrence with
      | some r => if r.frequency ≠ .none then some r else none
      | none => none
    createdAt := now }

/-- `createNextRecurringGame` from `firestore.ts`: spawns the next
occurrence 7 (weekly) or 14 (biweekly) days after the current start,
cloning the game's settings and linking `parentGameId` to the chain
root, unless the next start is more than 30 days away from `now`. -/
def createNextRecurringGame (completedGame : Game) (now : ℤ) (newGameId : String) :
    Option Game :=
  match completedGame.recurrence with
  | none => none
  | some r =>
    if r.frequency = .none then none
    else
      let weeksToAdd : ℤ := if r.frequency = .weekly then 1 else 2
      let nextStart := completedGame.startTime + weeksToAdd * 7 * MS_PER_DAY
      let maxFutureDate := now + 30 * MS_PER_DAY
      if nextStart > maxFutureDate then none
      else
        some (createGame completedGame.hostId
          { sport := completedGame.sport
            location := completedGame.location
            startTime := nextStart
            duration := completedGame.duration
            maxPlayers := completedGame.maxPlayers
            skillLevel := completedGame.skillLevel
            minElo := completedGame.minElo
            recurrence := some
              { r with parentGameId := some (r.parentGameId.getD completedGame.gameId) } }
          newGameId now)

/-! ## UI handlers (`ScoreSubmission.tsx`, `app/games/[id]/page.tsx`) -/

/-- `handleConfirmScore` from `ScoreSubmission.tsx`, run against a
snapshot `game` of the subscribed game document: first
`confirmGameResults`; if that throws, the catch block records the error
and nothing more happens.  Otherwise the handler counts
`results.confirmedBy.length + 1` confirmations against
`team1.length + team2.length` participants from the snapshot and, on a
strict majority (`>` over JS real division by 2), runs
`processEloUpdatesTransactional` with `processGameResults`.  The
returned flag says whether the transaction was invoked. -/
noncomputable def handleConfirmScore (st : DBState) (game : Game)
    (currentUserId : String) : DBState × Bool :=
  match confirmGameResults st game.gameId currentUserId with
  | .error _ => (st, false)
  | .ok st1 =>
    match game.results with
    | none => (st1, false)
    | some results =>
      let totalPlayers := results.team1.length + results.team2.length
      let confirmations := results.confirmedBy.length + 1
      if ((confirmations : ℚ) > (totalPlayers : ℚ) / 2) then
        match processEloUpdatesTransactional st1 game.gameId results.team1 results.team2
            results.team1Score results.team2Score game.sport processGameResults with
        | .ok st2 => (st2, true)
        | .error _ => (st1, true)
      else (st1, false)

/-- A sequence of confirm clicks, each on a fresh snapshot of the game
document (the page subscribes to live updates): returns the final state
and how many of the clicks invoked the rating-commit transaction. -/
noncomputable def runConfirmCalls (st : DBState) (gameId : String) :
    List String → DBState × ℕ
  | [] => (st, 0)
  | u :: us =>
    match st.games gameId with
    | none => runConfirmCalls st gameId us
    | some g =>
      let step := handleConfirmScore st g u
      let rest := runConfirmCalls step.1 gameId us
      (rest.1, (if step.2 then 1 else 0) + rest.2)

/-- `meetsEloRequirement` from `app/games/[id]/page.tsx`:
`!game.minElo || (profile?.sports[game.sport] || 0) >= game.minElo`.
A `minElo` of `0` is falsy in JS, so it imposes no requirement. -/
def meetsEloRequirement (game : Game) (profile : Option User) : Bool :=
  match game.minElo with
  | none => true
  | some m =>
    if m = 0 then true
    else decide ((match profile with
                  | none => (0 : ℤ)
                  | some p => p.sports.get game.sport) ≥ m)

/-- `isFull` from `app/games/[id]/page.tsx`:
`game.players.length >= game.maxPlayers`. -/
def isFull (game : Game) : Bool :=
  decide ((game.players.length : ℤ) ≥ game.maxPlayers)

/-- The join control of `app/games/[id]/page.tsx`: the join button is
rendered only for an `open` game when the authenticated viewer has not
joined, and is disabled when the game is full or the viewer misses the
Elo gate; `handleJoin` itself calls `joinGame` with no further check. -/
def joinButtonEnabled (game : Game) (viewerId : String) (profile : Option User) : Bool :=
  (game.status = .«open» : Bool) && !(game.players.contains viewerId) &&
    !(isFull game) && meetsEloRequirement game profile

/-- A completed weekly game used to exercise the recurrence spawn. -/
def gRec : Game :=
  { gameId := "g1", hostId := "h", sport := .basketball
    location := ⟨0, 0, "addr", "court"⟩, startTime := 0, duration := 60
    maxPlayers := 4, skillLevel := .casual, minElo := none
    players := ["h"], checkedIn := [], status := .completed, results := none
    recurrence := some ⟨.weekly, 0, none⟩, createdAt := 0 }

/-- A `pending_results` game with four participants and submitted
scores, awaiting confirmation. -/
def gPend : Game :=
  { gameId := "g1", hostId := "a", sport := .basketball
    location := ⟨0, 0, "addr", "court"⟩, startTime := 0, duration := 60
    maxPlayers := 4, skillLevel := .casual, minElo := none
    players := ["a", "b", "c", "d"], checkedIn := ["a", "b", "c", "d"]
    status := .pending_results
    results := some ⟨["a", "b"], ["c", "d"], 10, 5, []⟩
    recurrence := none, createdAt := 0 }

/-- A profile rated 1200 everywhere with zeroed counters. -/
def mkUser (uid : String) : User :=
  { uid := uid, displayName := uid, sports := ⟨1200, 1200⟩
    reliabilityScore := 100, gamesPlayed := 0, gamesAttended := 0 }

/-- Database holding `gPend` and its four participants. -/
def stPend : DBState :=
  { games := fun i => if i = "g1" then some gPend else none
    users := fun i => if i ∈ ["a", "b", "c", "d"] then some (mkUser i) else none }

/-- `handleSubmitScore` from `ScoreSubmission.tsx`: the only client-side
validation is that neither team is empty; when both are non-empty the
handler calls `submitGameResults` unchanged (`none` = rejected without a
call). -/
def handleSubmitScore (st : DBState) (gameId : String) (inp : SubmitScoreInput) :
    Option (Except FsError DBState) :=
  if inp.team1.length = 0 ∨ inp.team2.length = 0 then none
  else some (submitGameResults st gameId inp)

/-- An `in_progress` two-player game. -/
def gProg : Game :=
  { gameId := "g1", hostId := "a", sport := .basketball
    location := ⟨0, 0, "addr", "court"⟩, startTime := 0, duration := 60
    maxPlayers := 4, skillLevel := .casual, minElo := none
    players := ["a", "b"], checkedIn := ["a", "b"], status := .in_progress
    results := none, recurrence := none, createdAt := 0 }

/-- Database holding only `gProg`. -/
def stProg : DBState :=
  { games := fun i => if i = "g1" then some gProg else none
    users := fun i => if i ∈ ["a", "b"] then some (mkUser i) else none }

/-- A full open game: two joined players with `maxPlayers = 2`, plus a
rating gate of 1400. -/
def gFull : Game :=
  { gameId := "g1", hostId := "h", sport := .basketball
    location := ⟨0, 0, "addr", "court"⟩, startTime := 0, duration := 60
    maxPlayers := 2, skillLevel := .casual, minElo := some 1400
    players := ["h", "x"], checkedIn := [], status := .«open»
    results := none, recurrence := none, createdAt := 0 }

/-- Database holding only `gFull`. -/
def stFull : DBState :=
  { games := fun i => if i = "g1" then some gFull else none
    users := fun _ => none }

/-- The data-model invariant: the checked-in set is a subset of the
joined players. -/
def checkedInSubset (g : Game) : Prop := ∀ p ∈ g.checkedIn, p ∈ g.players

/-- The invariant over the whole games collection. -/
def InvAll (st : DBState) : Prop := ∀ i g, st.games i = some g → checkedInSubset g

/-- A two-player open game whose non-host player `u` has checked in. -/
def gLeave : Game :=
  { gameId := "g1", hostId := "h", sport := .soccer
    location := ⟨0, 0, "addr", "pitch"⟩, startTime := 0, duration := 60
    maxPlayers := 4, skillLevel := .casual, minElo := none
    players := ["h", "u"], checkedIn := ["u"], status := .«open»
    results := none, recurrence := none, createdAt := 0 }

/-- Database holding only `gLeave`. -/
def stLeave : DBState :=
  { games := fun i => if i = "g1" then some gLeave else none
    users := fun _ => none }

/-- A completed two-player game whose ratings were already committed. -/
def gDone : Game :=
  { gameId := "g1", hostId := "a", sport := .basketball
    location := ⟨0, 0, "addr", "court"⟩, startTime := 0, duration := 60
    maxPlayers := 2, skillLevel := .casual, minElo := none
    players := ["a", "b"], checkedIn := ["a", "b"], status := .completed
    results := some ⟨["a"], ["b"], 10, 5, ["a", "b"]⟩, recurrence := none, createdAt := 0 }

/-- Database holding the already-completed `gDone` and two fresh
1200-rated profiles. -/
def stDone : DBState :=
  { games := fun i => if i = "g1" then some gDone else none
    users := fun i => if i ∈ ["a", "b"] then some (mkUser i) else none }

/-- The submitted 2-vs-2 result of `gPend` with confirmation list `cs`. -/
def resC (cs : List String) : GameResults := ⟨["a", "b"], ["c", "d"], 10, 5, cs⟩

/-- `gPend` with confirmation list `cs`. -/
def gP (cs : List String) : Game := { gPend with results := some (resC cs) }

/-- The database after the confirmations `cs` have been recorded. -/
def stP (cs : List String) : DBState := stPend.setGame "g1" (gP cs)

/-- The four profiles as read inside the transaction. -/
def pdAll : List (String × User) :=
  [("a", mkUser "a"), ("b", mkUser "b"), ("c", mkUser "c"), ("d", mkUser "d")]

/-- The game after the rating-commit transaction has fired. -/
def gT : Game := { gP ["a", "b", "c"] with status := .completed }

/-- The database after the third confirmation triggered the
rating-commit transaction. -/
noncomputable def stT : DBState :=
  { games := fun i => if i = "g1" then some gT else (stP ["a", "b", "c"]).games i
    users := (processGameResults
        ((pdAll.filter (fun pu => (["a", "b"] : List String).contains pu.1)).map
          (fun pu => (pu.1, pu.2.sports.get Sport.basketball)))
        ((pdAll.filter (fun pu => !(["a", "b"] : List String).contains pu.1)).map
          (fun pu => (pu.1, pu.2.sports.get Sport.basketball))) 10 5).foldl
      (writeRating pdAll Sport.basketball) (stP ["a", "b", "c"]).users }

/-! ## Theorems -/

/-! ### Reliability penalty (claim C7) -/

/-- `0.95` as a plain fraction. -/
theorem no_show_multiplier_eq : NO_SHOW_PENALTY_MULTIPLIER = 19/20 := by
  norm_num [NO_SHOW_PENALTY_MULTIPLIER]

/-- C7 counterexample: a reliability score of 10 is a fixed point of the
penalty — `round(10 * 0.95) = round(9.5) = 10` — so one application does
not yield a strictly smaller integer, and iteration from 100 stalls at
10 instead of strictly decreasing toward 0. -/
theorem penalize_ten_fixed :
    calculateReliabilityPenalty 10 NO_SHOW_PENALTY_MULTIPLIER = 10 := by
  rw [calculateReliabilityPenalty, no_show_multiplier_eq, round_eq]
  norm_num

/-- C7 (amended): `penalize(score) = round(score * 0.95)`; for
non-negative scores it is non-negative and never increases; it strictly
decreases exactly on scores ≥ 11, while every score in [0, 10] is a
fixed point — so repeated application from 100 is non-increasing and
never negative, but stalls at 10 rather than strictly decreasing at
every step. -/
theorem penalize_amended (s : ℤ) :
    calculateReliabilityPenalty s NO_SHOW_PENALTY_MULTIPLIER = round ((s : ℚ) * (95/100)) ∧
    (0 ≤ s → 0 ≤ calculateReliabilityPenalty s NO_SHOW_PENALTY_MULTIPLIER ∧
      calculateReliabilityPenalty s NO_SHOW_PENALTY_MULTIPLIER ≤ s) ∧
    (11 ≤ s → calculateReliabilityPenalty s NO_SHOW_PENALTY_MULTIPLIER < s) ∧
    (0 ≤ s → s ≤ 10 → calculateReliabilityPenalty s NO_SHOW_PENALTY_MULTIPLIER = s) := by
  rw [calculateReliabilityPenalty, no_show_multiplier_eq, round_eq]
  refine ⟨by norm_num [round_eq], ?_, ?_, ?_⟩
  · intro hs
    have hs' : (0 : ℚ) ≤ (s : ℚ) := by exact_mod_cast hs
    constructor
    · exact Int.le_floor.mpr (by push_cast; linarith)
    · have h1 : (s : ℚ) * (19/20) + 1/2 < (s : ℚ) + 1 := by linarith
      exact Int.lt_add_one_iff.mp (Int.floor_lt.mpr (by push_cast; linarith))
  · intro hs
    have hs' : (11 : ℚ) ≤ (s : ℚ) := by exact_mod_cast hs
    exact Int.floor_lt.mpr (by linarith)
  · intro hs0 hs10
    have h0 : (0 : ℚ) ≤ (s : ℚ) := by exact_mod_cast hs0
    have h10 : (s : ℚ) ≤ 10 := by exact_mod_cast hs10
    rw [Int.floor_eq_iff]
    constructor
    · linarith
    · linarith

/-- Witness for `penalize_amended` at score 100: one penalty leaves the
score in [0, 100) — i.e. `penalize 100 < 100` and `0 ≤ penalize 100`. -/
theorem penalize_amended_witness :
    0 ≤ calculateReliabilityPenalty 100 NO_SHOW_PENALTY_MULTIPLIER ∧
    calculateReliabilityPenalty 100 NO_SHOW_PENALTY_MULTIPLIER < 100 :=
  ⟨((penalize_amended 100).2.1 (by norm_num)).1,
   (penalize_amended 100).2.2.1 (by norm_num)⟩

/-! ### Expected score (claim C8) -/

/-- Equal ratings give expectation 1/2. -/
theorem expectedScore_self (r : ℝ) : calculateExpectedScore r r = 1/2 := by
  rw [calculateExpectedScore]
  rw [show (r - r) / 400 = (0 : ℝ) by ring, Real.rpow_zero]
  norm_num

/-- Complementary expectations sum to 1. -/
theorem expectedScore_complement (a b : ℝ) :
    calculateExpectedScore a b + calculateExpectedScore b a = 1 := by
  rw [calculateExpectedScore, calculateExpectedScore]
  rw [show (a - b) / 400 = -((b - a) / 400) by ring,
    Real.rpow_neg (by norm_num : (0:ℝ) ≤ 10)]
  set t := (10:ℝ) ^ ((b - a) / 400) with ht
  have htpos : 0 < t := Real.rpow_pos_of_pos (by norm_num) _
  have h1 : (0:ℝ) < 1 + t := by linarith
  have h2 : (0:ℝ) < 1 + t⁻¹ := by
    have := inv_pos.mpr htpos
    linarith
  field_simp
  ring

/-- Expectations are non-negative. -/
theorem expectedScore_nonneg (a b : ℝ) : 0 ≤ calculateExpectedScore a b := by
  rw [calculateExpectedScore]
  positivity

/-- Expectations are at most 1. -/
theorem expectedScore_le_one (a b : ℝ) : calculateExpectedScore a b ≤ 1 := by
  rw [calculateExpectedScore]
  have hpos : 0 < (10:ℝ) ^ ((b - a) / 400) := Real.rpow_pos_of_pos (by norm_num) _
  rw [div_le_one (by linarith)]
  linarith

/-- C8: for every rating `r`, `expectedScore(r, r) = 1/2`; every
complementary pair sums to exactly 1; and the expectation computed as
`1 / (1 + 10^((b − a)/400))` always lies in [0, 1]. -/
theorem expectedScore_properties :
    (∀ r : ℝ, calculateExpectedScore r r = 1/2) ∧
    (∀ a b : ℝ, calculateExpectedScore a b + calculateExpectedScore b a = 1) ∧
    (∀ a b : ℝ, calculateExpectedScore a b = 1 / (1 + (10:ℝ) ^ ((b - a) / 400)) ∧
      0 ≤ calculateExpectedScore a b ∧ calculateExpectedScore a b ≤ 1) :=
  ⟨expectedScore_self, expectedScore_complement,
   fun a b => ⟨rfl, expectedScore_nonneg a b, expectedScore_le_one a b⟩⟩

/-! ### Elo end-to-end (claim C3) -/

/-- A one-member team's average is that member's rating. -/
theorem teamAverage_single (n : ℤ) : calculateTeamAverageElo [n] = n := by
  simp [calculateTeamAverageElo, round_intCast]

/-- Evaluation of the decisive 10–5 match between two 1200-rated
single-player teams. -/
theorem processGameResults_win_eval :
    processGameResults [("a", 1200)] [("b", 1200)] 10 5 = [("a", 1216), ("b", 1184)] := by
  simp only [processGameResults, List.map_cons, List.map_nil, teamAverage_single,
    List.cons_append, List.nil_append]
  norm_num [expectedScore_self, calculateNewElo, ELO_K_FACTOR, round_eq]

/-- Evaluation of the drawn 7–7 match between two 1200-rated
single-player teams. -/
theorem processGameResults_draw_eval :
    processGameResults [("a", 1200)] [("b", 1200)] 7 7 = [("a", 1200), ("b", 1200)] := by
  simp only [processGameResults, List.map_cons, List.map_nil, teamAverage_single,
    List.cons_append, List.nil_append]
  norm_num [expectedScore_self, calculateNewElo, ELO_K_FACTOR, round_eq]

/-- C3: `processMatch` on two single-player teams both rated 1200 with
k = 32: the decisive score 10–5 yields 1216 for the winner and 1184 for
the loser; the draw score 7–7 leaves both at 1200; and the decisive
deltas sum to 0 (within ±1). -/
theorem processMatch_equal_ratings :
    processGameResults [("a", 1200)] [("b", 1200)] 10 5 = [("a", 1216), ("b", 1184)] ∧
    processGameResults [("a", 1200)] [("b", 1200)] 7 7 = [("a", 1200), ("b", 1200)] ∧
    (1216 - 1200 : ℤ) + (1184 - 1200 : ℤ) = 0 :=
  ⟨processGameResults_win_eval, processGameResults_draw_eval, by norm_num⟩

/-! ### Recurrence spawn (claim C9) -/

/-- C9: for a game carrying a recurrence descriptor with frequency ≠
none, the spawn creates a game starting 7 (weekly) / 14 (biweekly) days
after the current start, cloning sport, location, duration, maxPlayers,
skillLevel and minElo, with `parentGameId` the chain root (the original
game's id on the first spawn, preserved thereafter); and no game is
created when the next start exceeds 30 days from now. -/
theorem recurrence_spawn (g : Game) (now : ℤ) (newGameId : String) (r : Recurrence)
    (hr : g.recurrence = some r) (hf : r.frequency ≠ .none) :
    (g.startTime + (if r.frequency = .weekly then 1 else 2) * 7 * MS_PER_DAY >
        now + 30 * MS_PER_DAY →
      createNextRecurringGame g now newGameId = none) ∧
    (g.startTime + (if r.frequency = .weekly then 1 else 2) * 7 * MS_PER_DAY ≤
        now + 30 * MS_PER_DAY →
      ∃ g', createNextRecurringGame g now newGameId = some g' ∧
        g'.startTime =
          g.startTime + (if r.frequency = .weekly then 1 else 2) * 7 * MS_PER_DAY ∧
        g'.sport = g.sport ∧ g'.location = g.location ∧ g'.duration = g.duration ∧
        g'.maxPlayers = g.maxPlayers ∧ g'.skillLevel = g.skillLevel ∧
        g'.minElo = g.minElo ∧ g'.hostId = g.hostId ∧ g'.gameId = newGameId ∧
        g'.status = .«open» ∧
        g'.recurrence =
          some { r with parentGameId := some (r.parentGameId.getD g.gameId) }) := by
  constructor
  · intro h
    simp only [createNextRecurringGame, hr, if_neg hf]
    rw [if_pos h]
  · intro h
    simp only [createNextRecurringGame, hr, if_neg hf]
    rw [if_neg (not_lt.mpr h)]
    exact ⟨_, rfl, by simp [createGame, hf]⟩

/-- Witness for `recurrence_spawn`: the weekly game `gRec` starting at
epoch 0 spawns, at `now = 0`, a clone starting 7 days later whose
`parentGameId` is the original id. -/
theorem recurrence_spawn_witness :
    ∃ g', createNextRecurringGame gRec 0 "g2" = some g' ∧
      g'.startTime = 7 * MS_PER_DAY ∧
      g'.recurrence = some ⟨.weekly, 0, some "g1"⟩ := by
  obtain ⟨g', hspawn, hstart, _, _, _, _, _, _, _, _, _, hrec⟩ :=
    (recurrence_spawn gRec 0 "g2" ⟨.weekly, 0, none⟩ rfl (by decide)).2
      (by norm_num [MS_PER_DAY, gRec])
  refine ⟨g', hspawn, ?_, ?_⟩
  · rw [hstart]; norm_num [gRec]
  · rw [hrec]; simp [gRec]

/-! ### Confirm-results frame (claim C10) -/

/-- The successful-confirmation equation: under the guards, the call
rewrites exactly one game, appending the caller to `confirmedBy`. -/
theorem confirmGameResults_ok (st : DBState) (gameId userId : String) (g : Game)
    (r : GameResults) (hg : st.games gameId = some g)
    (hs : g.status = .pending_results) (hres : g.results = some r)
    (hmem : userId ∈ r.team1 ++ r.team2) (hnew : userId ∉ r.confirmedBy) :
    confirmGameResults st gameId userId =
      .ok (st.setGame gameId
        { g with results := some { r with confirmedBy := r.confirmedBy ++ [userId] } }) := by
  simp only [confirmGameResults, hg, hres, Option.map_some', Option.getD_some]
  rw [if_neg (by simp [hs]), if_neg (not_not_intro hmem), if_neg (by simpa using hnew)]
  simp [arrayUnion, hnew]

/-- C10: for a `pending_results` game and an actor in `team1 ∪ team2`
not yet in `confirmedBy`, the confirmation call succeeds and mutates
only `results.confirmedBy`, appending exactly that actor; the user
collection, every other game, and every other field of this game — in
particular its status, which stays `pending_results` — are unchanged. -/
theorem confirm_results_frame (st : DBState) (gameId userId : String) (g : Game)
    (r : GameResults) (hg : st.games gameId = some g)
    (hs : g.status = .pending_results) (hres : g.results = some r)
    (hmem : userId ∈ r.team1 ++ r.team2) (hnew : userId ∉ r.confirmedBy) :
    ∃ st', confirmGameResults st gameId userId = .ok st' ∧
      st'.users = st.users ∧
      (∀ i, i ≠ gameId → st'.games i = st.games i) ∧
      st'.games gameId =
        some { g with results := some { r with confirmedBy := r.confirmedBy ++ [userId] } } ∧
      (st'.games gameId).map (·.status) = some .pending_results := by
  refine ⟨st.setGame gameId
    { g with results := some { r with confirmedBy := r.confirmedBy ++ [userId] } },
    confirmGameResults_ok st gameId userId g r hg hs hres hmem hnew, rfl, ?_, ?_, ?_⟩
  · intro i hi
    simp [DBState.setGame, hi]
  · simp [DBState.setGame]
  · simp [DBState.setGame, hs]

/-- Witness for `confirm_results_frame`: participant "c" confirming the
pending game `gPend` only appends "c" to `confirmedBy`. -/
theorem confirm_results_frame_witness :
    ∃ st', confirmGameResults stPend "g1" "c" = .ok st' ∧
      st'.users = stPend.users ∧
      (∀ i, i ≠ "g1" → st'.games i = stPend.games i) ∧
      st'.games "g1" =
        some { gPend with results := some ⟨["a", "b"], ["c", "d"], 10, 5, ["c"]⟩ } ∧
      (st'.games "g1").map (·.status) = some .pending_results := by
  have h := confirm_results_frame stPend "g1" "c" gPend ⟨["a", "b"], ["c", "d"], 10, 5, []⟩
    (by simp [stPend]) rfl rfl (by simp) (by simp)
  simpa using h

/-! ### Submit results (claim C6) -/

/-- C6 counterexample: `submitGameResults` accepts malformed teams — the
overlapping teams `["a"]` vs `["a"]` and even two empty teams are
accepted (moving the game to `pending_results`), instead of failing
with a validation error. -/
theorem submit_malformed_teams_accepted :
    submitGameResults stProg "g1" ⟨["a"], ["a"], 10, 5⟩ =
      .ok (stProg.setGame "g1"
        { gProg with results := some ⟨["a"], ["a"], 10, 5, []⟩, status := .pending_results }) ∧
    submitGameResults stProg "g1" ⟨[], [], 0, 0⟩ =
      .ok (stProg.setGame "g1"
        { gProg with results := some ⟨[], [], 0, 0, []⟩, status := .pending_results }) := by
  constructor <;>
    norm_num [submitGameResults, stProg, gProg, List.find?]

/-- C6 (amended): `submitGameResults` succeeds iff the game's status is
`in_progress`, every listed team member is a joined player, and both
scores are non-negative integers — the operation itself performs no
non-emptiness or disjointness check on the teams (the UI handler
separately rejects empty teams before calling it); on success the
results are stored with `confirmedBy := ∅` and the game moves to
`pending_results`, and a game that is not `in_progress` yields the
state error. -/
theorem submit_results_amended (st : DBState) (gameId : String) (inp : SubmitScoreInput)
    (g : Game) (hg : st.games gameId = some g) :
    (g.status = .in_progress → (∀ p ∈ inp.team1 ++ inp.team2, p ∈ g.players) →
      0 ≤ inp.team1Score → 0 ≤ inp.team2Score →
      inp.team1Score.den = 1 → inp.team2Score.den = 1 →
      submitGameResults st gameId inp =
        .ok (st.setGame gameId
          { g with
            results := some ⟨inp.team1, inp.team2, inp.team1Score, inp.team2Score, []⟩
            status := .pending_results })) ∧
    (g.status ≠ .in_progress →
      submitGameResults st gameId inp = .error .scoresOnlyWhenInProgress) ∧
    (∀ st', submitGameResults st gameId inp = .ok st' →
      g.status = .in_progress ∧ (∀ p ∈ inp.team1 ++ inp.team2, p ∈ g.players) ∧
        0 ≤ inp.team1Score ∧ 0 ≤ inp.team2Score ∧
        inp.team1Score.den = 1 ∧ inp.team2Score.den = 1) ∧
    (∀ stx gx, inp.team1 = [] ∨ inp.team2 = [] →
      handleSubmitScore stx gx inp = none) := by
  refine ⟨?_, ?_, ?_, ?_⟩
  · intro hs hmem h1 h2 hd1 hd2
    simp only [submitGameResults, hg]
    rw [if_neg (by simp [hs])]
    have hfind : (inp.team1 ++ inp.team2).find? (fun p => !g.players.contains p) = none := by
      rw [List.find?_eq_none]
      intro p hp
      simpa using hmem p hp
    rw [hfind]
    rw [if_neg (by push_neg; exact ⟨h1, h2⟩), if_neg (by push_neg; exact ⟨hd1, hd2⟩)]
  · intro hs
    simp only [submitGameResults, hg]
    rw [if_pos (by simp [hs])]
  · intro st' hok
    simp only [submitGameResults, hg] at hok
    by_cases hs : g.status = .in_progress
    · rw [if_neg (by simp [hs])] at hok
      refine ⟨hs, ?_⟩
      cases hfind : (inp.team1 ++ inp.team2).find? (fun p => !g.players.contains p) with
      | some p => rw [hfind] at hok; exact absurd hok (by simp)
      | none =>
        rw [hfind] at hok
        have hmem : ∀ p ∈ inp.team1 ++ inp.team2, p ∈ g.players := by
          intro p hp
          have := List.find?_eq_none.mp hfind p hp
          simpa using this
        refine ⟨hmem, ?_⟩
        by_cases hneg : inp.team1Score < 0 ∨ inp.team2Score < 0
        · rw [if_pos hneg] at hok; exact absurd hok (by simp)
        · rw [if_neg hneg] at hok
          push_neg at hneg
          by_cases hden : inp.team1Score.den ≠ 1 ∨ inp.team2Score.den ≠ 1
          · rw [if_pos hden] at hok; exact absurd hok (by simp)
          · push_neg at hden
            exact ⟨hneg.1, hneg.2, hden.1, hden.2⟩
    · rw [if_pos (by simp [hs])] at hok
      exact absurd hok (by simp)
  · intro stx gx hempty
    unfold handleSubmitScore
    rw [if_pos (by rcases hempty with h | h <;> simp [h])]

/-- Witness for `submit_results_amended`: the host of `gProg`
submitting the well-formed result `["a"]` 10 – 5 `["b"]` moves the game
to `pending_results` with an empty `confirmedBy`. -/
theorem submit_results_amended_witness :
    submitGameResults stProg "g1" ⟨["a"], ["b"], 10, 5⟩ =
      .ok (stProg.setGame "g1"
        { gProg with results := some ⟨["a"], ["b"], 10, 5, []⟩
                     status := .pending_results }) :=
  (submit_results_amended stProg "g1" ⟨["a"], ["b"], 10, 5⟩ gProg (by simp [stProg])).1
    rfl (by simp [gProg]) (by norm_num) (by norm_num) (by norm_num) (by norm_num)

/-! ### Join (claim C4) -/

/-- C4 counterexample: with `gFull` at capacity (2 joined of
`maxPlayers = 2`) and a 1400 rating gate, `joinGame` does not fail with
any error — it succeeds and pushes the game to 3 joined players. -/
theorem join_unguarded_on_full_game :
    (gFull.players.length : ℤ) = gFull.maxPlayers ∧
    joinGame stFull "g1" "c" =
      .ok (stFull.setGame "g1" { gFull with players := ["h", "x", "c"] }) := by
  constructor
  · norm_num [gFull]
  · simp [joinGame, stFull, gFull, arrayUnion]

/-- C4 (amended): the backend `joinGame` applies no guard at all — for
any existing game, whatever its status, player count or rating gate, it
succeeds and unions the actor into the joined players.  The capacity,
eligibility and state guards exist only in the game page's UI, which
disables or hides the join button when the game is full, when the
viewer's rating misses a non-zero `minElo`, or when the game is not
open. -/
theorem join_amended (st : DBState) (gameId userId : String) (g : Game)
    (hg : st.games gameId = some g) :
    joinGame st gameId userId =
      .ok (st.setGame gameId { g with players := arrayUnion g.players userId }) ∧
    (∀ viewerId profile, isFull g = true →
      joinButtonEnabled g viewerId profile = false) ∧
    (∀ viewerId profile, g.status ≠ .«open» →
      joinButtonEnabled g viewerId profile = false) ∧
    (∀ viewerId (u : User) m, g.minElo = some m → m ≠ 0 →
      u.sports.get g.sport < m →
      joinButtonEnabled g viewerId (some u) = false) := by
  refine ⟨?_, ?_, ?_, ?_⟩
  · simp only [joinGame, hg]
  · intro viewerId profile hfull
    simp [joinButtonEnabled, hfull]
  · intro viewerId profile hstat
    simp [joinButtonEnabled, hstat]
  · intro viewerId u m hm hm0 hlt
    simp [joinButtonEnabled, meetsEloRequirement, hm, hm0, not_le.mpr hlt]

/-- Witness for `join_amended`: joining the full game `gFull` anyway
succeeds, and the UI button for a 1200-rated non-member viewing `gFull`
is disabled. -/
theorem join_amended_witness :
    joinGame stFull "g1" "c" =
      .ok (stFull.setGame "g1" { gFull with players := arrayUnion gFull.players "c" }) ∧
    joinButtonEnabled gFull "c" (some (mkUser "c")) = false := by
  have h := join_amended stFull "g1" "c" gFull (by simp [stFull])
  exact ⟨h.1, h.2.1 "c" (some (mkUser "c")) (by norm_num [isFull, gFull])⟩

/-! ### Checked-in ⊆ players invariant (claim C5) -/

/-- Membership survives `arrayUnion`. -/
theorem mem_arrayUnion_of_mem {xs : List String} {x a : String} (h : a ∈ xs) :
    a ∈ arrayUnion xs x := by
  unfold arrayUnion
  split
  · exact h
  · exact List.mem_append_left _ h

/-- Membership in `arrayUnion` comes from the list or the new element. -/
theorem mem_arrayUnion_iff {xs : List String} {x a : String} :
    a ∈ arrayUnion xs x ↔ a ∈ xs ∨ a = x := by
  unfold arrayUnion
  split
  · rename_i hx
    exact ⟨Or.inl, fun h => h.elim id (fun h' => h' ▸ hx)⟩
  · simp

/-- Membership in `arrayRemove`. -/
theorem mem_arrayRemove_iff {xs : List String} {x a : String} :
    a ∈ arrayRemove xs x ↔ a ∈ xs ∧ a ≠ x := by
  simp [arrayRemove]

/-- Updating one game preserves the collection-wide invariant when the
new value satisfies it. -/
theorem invAll_setGame {st : DBState} {gameId : String} {g' : Game} (hinv : InvAll st)
    (hg' : checkedInSubset g') : InvAll (st.setGame gameId g') := by
  intro i g hi
  simp only [DBState.setGame] at hi
  by_cases h : i = gameId
  · rw [if_pos h] at hi
    cases hi
    exact hg'
  · rw [if_neg h] at hi
    exact hinv i g hi

/-- C5 counterexample: the checked-in player "u" leaving `gLeave`
removes "u" from `players` but not from `checkedIn`, so the resulting
game violates checked-in ⊆ players. -/
theorem leave_breaks_checkedIn_invariant :
    checkedInSubset gLeave ∧
    leaveGame stLeave "g1" "u" =
      .ok (stLeave.setGame "g1" { gLeave with players := ["h"] }) ∧
    ¬ checkedInSubset { gLeave with players := ["h"] } := by
  refine ⟨?_, ?_, ?_⟩
  · intro p hp
    simp only [gLeave] at hp ⊢
    simp at hp
    simp [hp]
  · simp [leaveGame, stLeave, gLeave, arrayRemove]
  · intro h
    have := h "u" (by simp [gLeave])
    simp [gLeave] at this

/-- C5 (amended): every lifecycle operation except `leave` preserves
checked-in ⊆ players across the collection — join, check-in, status
updates (start / complete / cancel), submit results, confirm results,
the rating-commit transaction and the user-profile writes all keep the
invariant; `leave` preserves it only when the leaving player is not
checked in (a checked-in player leaving breaks it, since `leaveGame`
removes from `players` but not from `checkedIn`). -/
theorem lifecycle_preserves_checkedIn (st st' : DBState) (hinv : InvAll st) :
    (∀ gameId userId, joinGame st gameId userId = .ok st' → InvAll st') ∧
    (∀ gameId userId, checkInToGame st gameId userId = .ok st' → InvAll st') ∧
    (∀ gameId status, updateGameStatus st gameId status = .ok st' → InvAll st') ∧
    (∀ gameId, completeGame st gameId = .ok st' → InvAll st') ∧
    (∀ gameId, cancelGame st gameId = .ok st' → InvAll st') ∧
    (∀ gameId inp, submitGameResults st gameId inp = .ok st' → InvAll st') ∧
    (∀ gameId userId, confirmGameResults st gameId userId = .ok st' → InvAll st') ∧
    (∀ userId score, updateUserReliability st userId score = .ok st' → InvAll st') ∧
    (∀ userId attended, incrementUserGames st userId attended = .ok st' → InvAll st') ∧
    (∀ gameId t1 t2 s1 s2 sport f,
      processEloUpdatesTransactional st gameId t1 t2 s1 s2 sport f = .ok st' →
        InvAll st') ∧
    (∀ gameId userId g, st.games gameId = some g → userId ∉ g.checkedIn →
      leaveGame st gameId userId = .ok st' → InvAll st') := by
  refine ⟨?_, ?_, ?_, ?_, ?_, ?_, ?_, ?_, ?_, ?_, ?_⟩
  · -- join: players grow, checkedIn unchanged
    intro gameId userId hok
    unfold joinGame at hok
    cases hg : st.games gameId with
    | none => rw [hg] at hok; exact absurd hok (by simp)
    | some g =>
      rw [hg] at hok
      simp only [Except.ok.injEq] at hok
      subst hok
      exact invAll_setGame hinv
        (fun p hp => mem_arrayUnion_of_mem (hinv gameId g hg p hp))
  · -- check-in: requires membership, so the new entry is a player
    intro gameId userId hok
    unfold checkInToGame at hok
    cases hg : st.games gameId with
    | none => rw [hg] at hok; exact absurd hok (by simp)
    | some g =>
      rw [hg] at hok
      simp only at hok
      split_ifs at hok with h1 h2
      simp only [Except.ok.injEq] at hok
      subst hok
      refine invAll_setGame hinv (fun p hp => ?_)
      rcases mem_arrayUnion_iff.mp hp with h | h
      · exact hinv gameId g hg p h
      · rw [h]
        exact h1
  · -- status update: players and checkedIn untouched
    intro gameId status hok
    unfold updateGameStatus at hok
    cases hg : st.games gameId with
    | none => rw [hg] at hok; exact absurd hok (by simp)
    | some g =>
      rw [hg] at hok
      simp only [Except.ok.injEq] at hok
      subst hok
      exact invAll_setGame hinv (fun p hp => hinv gameId g hg p hp)
  · -- complete
    intro gameId hok
    unfold completeGame updateGameStatus at hok
    cases hg : st.games gameId with
    | none => rw [hg] at hok; exact absurd hok (by simp)
    | some g =>
      rw [hg] at hok
      simp only [Except.ok.injEq] at hok
      subst hok
      exact invAll_setGame hinv (fun p hp => hinv gameId g hg p hp)
  · -- cancel
    intro gameId hok
    unfold cancelGame updateGameStatus at hok
    cases hg : st.games gameId with
    | none => rw [hg] at hok; exact absurd hok (by simp)
    | some g =>
      rw [hg] at hok
      simp only [Except.ok.injEq] at hok
      subst hok
      exact invAll_setGame hinv (fun p hp => hinv gameId g hg p hp)
  · -- submit results: only results/status change
    intro gameId inp hok
    unfold submitGameResults at hok
    cases hg : st.games gameId with
    | none => rw [hg] at hok; exact absurd hok (by simp)
    | some g =>
      rw [hg] at hok
      simp only at hok
      by_cases hs : g.status ≠ .in_progress
      · rw [if_pos hs] at hok; exact absurd hok (by simp)
      · rw [if_neg hs] at hok
        cases hfind : (inp.team1 ++ inp.team2).find? (fun p => !g.players.contains p) with
        | some p => rw [hfind] at hok; exact absurd hok (by simp)
        | none =>
          rw [hfind] at hok
          simp only at hok
          split_ifs at hok
          simp only [Except.ok.injEq] at hok
          subst hok
          exact invAll_setGame hinv (fun p hp => hinv gameId g hg p hp)
  · -- confirm results: only results change
    intro gameId userId hok
    unfold confirmGameResults at hok
    cases hg : st.games gameId with
    | none => rw [hg] at hok; exact absurd hok (by simp)
    | some g =>
      rw [hg] at hok
      simp only at hok
      split_ifs at hok
      simp only [Except.ok.injEq] at hok
      subst hok
      exact invAll_setGame hinv (fun p hp => hinv gameId g hg p hp)
  · -- reliability write: games untouched
    intro userId score hok
    unfold updateUserReliability at hok
    cases hu : st.users userId with
    | none => rw [hu] at hok; exact absurd hok (by simp)
    | some u =>
      rw [hu] at hok
      simp only [Except.ok.injEq] at hok
      subst hok
      exact hinv
  · -- games counters write: games untouched
    intro userId attended hok
    unfold incrementUserGames at hok
    cases hu : st.users userId with
    | none =>
      rw [hu] at hok
      simp only [Except.ok.injEq] at hok
      subst hok
      exact hinv
    | some u =>
      rw [hu] at hok
      simp only [Except.ok.injEq] at hok
      subst hok
      exact hinv
  · -- rating-commit transaction: only the status and user profiles change
    intro gameId t1 t2 s1 s2 sport f hok
    unfold processEloUpdatesTransactional at hok
    cases hread : readPlayers st.users (t1 ++ t2) with
    | error e => rw [hread] at hok; exact absurd hok (by simp)
    | ok pd =>
      rw [hread] at hok
      cases hg : st.games gameId with
      | none => rw [hg] at hok; exact absurd hok (by simp)
      | some g =>
        rw [hg] at hok
        simp only [Except.ok.injEq] at hok
        subst hok
        intro i gi hi
        simp only at hi
        by_cases h : i = gameId
        · rw [if_pos h] at hi
          cases hi
          exact fun p hp => hinv gameId g hg p hp
        · rw [if_neg h] at hi
          exact hinv i gi hi
  · -- leave by a player who is not checked in
    intro gameId userId g hg hnotin hok
    unfold leaveGame at hok
    rw [hg] at hok
    simp only [Except.ok.injEq] at hok
    subst hok
    refine invAll_setGame hinv (fun p hp => ?_)
    refine mem_arrayRemove_iff.mpr ⟨hinv gameId g hg p hp, ?_⟩
    intro hpu
    exact hnotin (hpu ▸ hp)

/-- Witness for `lifecycle_preserves_checkedIn`: joining the
invariant-satisfying database `stProg` preserves the invariant. -/
theorem lifecycle_preserves_checkedIn_witness :
    InvAll (stProg.setGame "g1" { gProg with players := arrayUnion gProg.players "c" }) := by
  have hinv : InvAll stProg := by
    intro i g hi
    simp only [stProg] at hi
    by_cases h : i = "g1"
    · rw [if_pos h] at hi
      cases hi
      intro p hp
      simpa [gProg] using hp
    · rw [if_neg h] at hi
      cases hi
  exact (lifecycle_preserves_checkedIn stProg _ hinv).1 "g1" "c"
    (by simp [joinGame, stProg])

/-! ### Rating-commit transaction vs. game status (claim C1) -/

/-- When every listed profile exists, the transaction's read phase
returns exactly the snapshot of those profiles. -/
theorem readPlayers_map (users : String → Option User) (f : String → User) :
    ∀ ps : List String, (∀ p ∈ ps, users p = some (f p)) →
      readPlayers users ps = .ok (ps.map fun p => (p, f p))
  | [], _ => rfl
  | p :: ps, h => by
    simp only [readPlayers, h p (by simp)]
    rw [readPlayers_map users f ps (fun q hq => h q (by simp [hq]))]
    rfl

/-- The transaction succeeds whenever the reads succeed and the game
document exists — the game's current status is never consulted. -/
theorem processEloUpdatesTransactional_ok (st : DBState) (gameId : String)
    (t1 t2 : List String) (s1 s2 : ℚ) (sport : Sport)
    (calcResults : List (String × ℤ) → List (String × ℤ) → ℚ → ℚ → List (String × ℤ))
    (pd : List (String × User)) (g : Game)
    (hread : readPlayers st.users (t1 ++ t2) = .ok pd)
    (hg : st.games gameId = some g) :
    processEloUpdatesTransactional st gameId t1 t2 s1 s2 sport calcResults =
      .ok { games := fun i => if i = gameId then some { g with status := .completed }
                              else st.games i
            users := (calcResults
                ((pd.filter (fun pu => t1.contains pu.1)).map
                  (fun pu => (pu.1, pu.2.sports.get sport)))
                ((pd.filter (fun pu => !t1.contains pu.1)).map
                  (fun pu => (pu.1, pu.2.sports.get sport))) s1 s2).foldl
              (writeRating pd sport) st.users } := by
  simp only [processEloUpdatesTransactional, hread, hg]

/-- Looking up a player in the read snapshot of the mapped profiles. -/
theorem find?_map_self (f : String → User) (q : String) :
    ∀ l : List String, q ∈ l →
      (((l.map fun p => (p, f p)).find? (fun pu => pu.1 = q)).map (·.2)) = some (f q)
  | [], hq => absurd hq (by simp)
  | a :: l, hq => by
    by_cases ha : a = q
    · subst ha
      simp [List.find?]
    · have hql : q ∈ l := by
        rcases hq with _ | h
        · exact absurd rfl ha
        · assumption
      simp only [List.map_cons]
      rw [List.find?_cons_of_neg _ (by simp [ha])]
      exact find?_map_self f q l hql

/-- The write phase does not touch players outside the rating map. -/
theorem foldl_writeRating_frame (pd : List (String × User)) (sport : Sport) (p : String) :
    ∀ (rs : List (String × ℤ)) (us : String → Option User),
      p ∉ rs.map Prod.fst → rs.foldl (writeRating pd sport) us p = us p
  | [], _, _ => rfl
  | (q, w) :: rs, us, hp => by
    have hpq : p ≠ q := by
      intro h
      exact hp (by simp [h])
    rw [List.foldl_cons,
      foldl_writeRating_frame pd sport p rs _ (fun h => hp (by simp [h]))]
    simp [writeRating, hpq]

/-- The write phase overwrites each listed player's rating with the
entry computed for them and bumps both counters, using the profile read
earlier in the transaction. -/
theorem foldl_writeRating_mem (pd : List (String × User)) (sport : Sport) (p : String)
    (u : User) (hfound : ((pd.find? (fun pu => pu.1 = p)).map (·.2)) = some u) :
    ∀ (rs : List (String × ℤ)) (us : String → Option User),
      (rs.map Prod.fst).Nodup → p ∈ rs.map Prod.fst →
      ∃ e : ℤ, rs.foldl (writeRating pd sport) us p =
        some { u with
               sports := u.sports.set sport e
               gamesPlayed := u.gamesPlayed + 1
               gamesAttended := u.gamesAttended + 1 }
  | [], _, _, hp => absurd hp (by simp)
  | (q, w) :: rs, us, hnd, hp => by
    rw [List.foldl_cons]
    by_cases hpq : p = q
    · subst hpq
      have hnot : p ∉ rs.map Prod.fst := (List.nodup_cons.mp hnd).1
      refine ⟨w, ?_⟩
      rw [foldl_writeRating_frame pd sport p rs _ hnot]
      simp [writeRating, hfound]
    · have hmem : p ∈ rs.map Prod.fst := by
        rcases hp with _ | h
        · exact absurd rfl hpq
        · assumption
      exact foldl_writeRating_mem pd sport p u hfound rs _ (List.nodup_cons.mp hnd).2 hmem

/-- The keys of the rating map follow the two Elo maps in order. -/
theorem processGameResults_keys (t1 t2 : List (String × ℤ)) (s1 s2 : ℚ) :
    (processGameResults t1 t2 s1 s2).map Prod.fst =
      t1.map Prod.fst ++ t2.map Prod.fst := by
  unfold processGameResults
  simp only [List.map_append, List.map_map]
  congr 1

/-- C1 counterexample: running the rating-commit transaction against
`gDone`, whose status is already `completed`, does not no-op or fail —
it succeeds and changes participant "a"'s rating from 1200 to 1216 and
both counters from 0 to 1. -/
theorem elo_transaction_reruns_on_completed_game :
    (stDone.games "g1").map (·.status) = some .completed ∧
    (stDone.users "a").map
      (fun u => (u.gamesPlayed, u.gamesAttended, u.sports.get .basketball)) =
      some (0, 0, 1200) ∧
    (processEloUpdatesTransactional stDone "g1" ["a"] ["b"] 10 5 .basketball
        processGameResults).map
      (fun st' =>
        ((st'.users "a").map
          (fun u => (u.gamesPlayed, u.gamesAttended, u.sports.get .basketball)),
         (st'.games "g1").map (·.status))) =
      .ok (some (1, 1, 1216), some .completed) := by
  refine ⟨by simp [stDone, gDone], by simp [stDone, mkUser, UserSports.get], ?_⟩
  have hread : readPlayers stDone.users (["a"] ++ ["b"]) =
      .ok [("a", mkUser "a"), ("b", mkUser "b")] := by
    simp [readPlayers, stDone, Except.map]
  rw [processEloUpdatesTransactional_ok stDone "g1" ["a"] ["b"] 10 5 .basketball
    processGameResults _ gDone hread (by simp [stDone])]
  have h1 : (([("a", mkUser "a"), ("b", mkUser "b")].filter
      (fun pu => (["a"] : List String).contains pu.1)).map
        (fun pu => (pu.1, pu.2.sports.get Sport.basketball))) = [("a", (1200 : ℤ))] := by
    simp [mkUser, UserSports.get]
  have h2 : (([("a", mkUser "a"), ("b", mkUser "b")].filter
      (fun pu => !(["a"] : List String).contains pu.1)).map
        (fun pu => (pu.1, pu.2.sports.get Sport.basketball))) = [("b", (1200 : ℤ))] := by
    simp [mkUser, UserSports.get]
  rw [h1, h2, processGameResults_win_eval]
  simp [Except.map, List.foldl, writeRating, List.find?, mkUser, UserSports.set,
    UserSports.get, stDone, gDone]

/-- C1 (amended): the rating-commit transaction performs no re-check of
`status == pending_results`: against a game whose status is already
`completed` it succeeds again, rewriting `completed` and — far from
leaving participants unchanged — overwriting every participant's
rating and incrementing their `gamesPlayed` and `gamesAttended`, so a
second majority confirmation that reaches the transaction re-applies
the rating computation. -/
theorem elo_transaction_no_status_recheck (st : DBState) (gameId : String) (g : Game)
    (team1 team2 : List String) (s1 s2 : ℚ) (sport : Sport) (f : String → User)
    (hg : st.games gameId = some g) (_hstatus : g.status = .completed)
    (husers : ∀ p ∈ team1 ++ team2, st.users p = some (f p))
    (hnd : (team1 ++ team2).Nodup) :
    ∃ st', processEloUpdatesTransactional st gameId team1 team2 s1 s2 sport
        processGameResults = .ok st' ∧
      (st'.games gameId).map (·.status) = some .completed ∧
      ∀ p ∈ team1 ++ team2, ∃ e : ℤ,
        st'.users p = some
          { f p with
            sports := (f p).sports.set sport e
            gamesPlayed := (f p).gamesPlayed + 1
            gamesAttended := (f p).gamesAttended + 1 } := by
  have hread := readPlayers_map st.users f (team1 ++ team2) husers
  refine ⟨_, processEloUpdatesTransactional_ok st gameId team1 team2 s1 s2 sport
    processGameResults _ g hread hg, by simp, ?_⟩
  intro p hp
  rcases List.nodup_append.mp hnd with ⟨hnd1, hnd2, hdisj⟩
  -- the filters split the snapshot back into the two teams
  have hsplit : ((team1 ++ team2).map fun q => (q, f q)).filter
      (fun pu => team1.contains pu.1) = team1.map fun q => (q, f q) := by
    rw [List.filter_map]
    have hcomp : ((fun pu : String × User => team1.contains pu.1) ∘ fun q => (q, f q)) =
        fun q => team1.contains q := rfl
    have hfl : (team1 ++ team2).filter (fun q => team1.contains q) = team1 := by
      rw [List.filter_append]
      rw [List.filter_eq_self.mpr (fun a ha => by simpa using ha)]
      rw [List.filter_eq_nil_iff.mpr (fun a ha => by simpa using fun h => hdisj h ha)]
      simp
    rw [hcomp, hfl]
  have hsplit2 : ((team1 ++ team2).map fun q => (q, f q)).filter
      (fun pu => !team1.contains pu.1) = team2.map fun q => (q, f q) := by
    rw [List.filter_map]
    have hcomp : ((fun pu : String × User => !team1.contains pu.1) ∘ fun q => (q, f q)) =
        fun q => !team1.contains q := rfl
    have hfl : (team1 ++ team2).filter (fun q => !team1.contains q) = team2 := by
      rw [List.filter_append]
      rw [List.filter_eq_nil_iff.mpr (fun a ha => by simpa using ha)]
      rw [List.filter_eq_self.mpr (fun a ha => by simpa using fun h => hdisj h ha)]
      simp
    rw [hcomp, hfl]
  have hkeys : ((processGameResults
      ((((team1 ++ team2).map fun q => (q, f q)).filter
          (fun pu => team1.contains pu.1)).map (fun pu => (pu.1, pu.2.sports.get sport)))
      ((((team1 ++ team2).map fun q => (q, f q)).filter
          (fun pu => !team1.contains pu.1)).map (fun pu => (pu.1, pu.2.sports.get sport)))
      s1 s2).map Prod.fst) = team1 ++ team2 := by
    rw [hsplit, hsplit2, processGameResults_keys]
    simp only [List.map_map]
    congr 1
    · exact List.map_id'' (fun a => rfl) team1
    · exact List.map_id'' (fun a => rfl) team2
  have hfound := find?_map_self f p (team1 ++ team2) hp
  obtain ⟨e, he⟩ := foldl_writeRating_mem ((team1 ++ team2).map fun q => (q, f q)) sport p
    (f p) hfound _ st.users (by rw [hkeys]; exact hnd) (by rw [hkeys]; exact hp)
  exact ⟨e, he⟩

/-- Witness for `elo_transaction_no_status_recheck` at the concrete
database `stDone`: the transaction against the completed game succeeds
and increments participant "b"'s counters. -/
theorem elo_transaction_no_status_recheck_witness :
    ∃ st', processEloUpdatesTransactional stDone "g1" ["a"] ["b"] 10 5 .basketball
        processGameResults = .ok st' ∧
      (st'.games "g1").map (·.status) = some .completed ∧
      ∃ e : ℤ, st'.users "b" = some
        { mkUser "b" with
          sports := (mkUser "b").sports.set .basketball e
          gamesPlayed := 1
          gamesAttended := 1 } := by
  obtain ⟨st', hok, hst, hall⟩ := elo_transaction_no_status_recheck stDone "g1" gDone
    ["a"] ["b"] 10 5 .basketball (fun p => mkUser p)
    (by simp [stDone]) rfl (by intro p hp; fin_cases hp <;> simp [stDone])
    (by simp)
  obtain ⟨e, he⟩ := hall "b" (by simp)
  exact ⟨st', hok, hst, e, by rw [he]; simp [mkUser]⟩

/-! ### Majority trigger on confirmation (claim C2) -/

/-- The JS majority test `confirmations > totalPlayers / 2` (real
division) is the strict-majority test `2 * confirmations > total`. -/
theorem natCast_gt_half_iff (c t : ℕ) : ((c : ℚ) > (t : ℚ) / 2) ↔ 2 * c > t := by
  rw [gt_iff_lt, div_lt_iff₀ (by norm_num : (0:ℚ) < 2), mul_comm]
  exact_mod_cast Iff.rfl

/-- The handler invokes the rating-commit transaction exactly when the
snapshot's confirmation count plus the new confirmation strictly
exceeds half the participant count. -/
theorem handleConfirmScore_trigger_iff (st : DBState) (g : Game) (r : GameResults)
    (actor : String) (hg : st.games g.gameId = some g)
    (hs : g.status = .pending_results) (hres : g.results = some r)
    (hmem : actor ∈ r.team1 ++ r.team2) (hnew : actor ∉ r.confirmedBy) :
    (handleConfirmScore st g actor).2 = true ↔
      2 * (r.confirmedBy.length + 1) > (r.team1 ++ r.team2).length := by
  unfold handleConfirmScore
  rw [confirmGameResults_ok st g.gameId actor g r hg hs hres hmem hnew]
  simp only [hres]
  rw [List.length_append]
  by_cases hmaj : (((r.confirmedBy.length + 1 : ℕ) : ℚ) >
      ((r.team1.length + r.team2.length : ℕ) : ℚ) / 2)
  · rw [if_pos (by exact_mod_cast hmaj)]
    refine iff_of_true ?_ ?_
    · split <;> rfl
    · have := (natCast_gt_half_iff _ _).mp hmaj
      omega
  · rw [if_neg (by exact_mod_cast hmaj)]
    refine iff_of_false (by simp) ?_
    intro h
    exact hmaj ((natCast_gt_half_iff _ _).mpr (by omega))

/-- Overwriting the same game twice keeps only the second write. -/
theorem setGame_setGame (st : DBState) (i : String) (g1 g2 : Game) :
    (st.setGame i g1).setGame i g2 = st.setGame i g2 := by
  unfold DBState.setGame
  congr 1
  funext j
  by_cases h : j = i <;> simp [h]

theorem gP_gameId (cs : List String) : (gP cs).gameId = "g1" := rfl

theorem gP_results (cs : List String) : (gP cs).results = some (resC cs) := rfl

theorem gP_sport (cs : List String) : (gP cs).sport = Sport.basketball := rfl

theorem stP_games (cs : List String) : (stP cs).games "g1" = some (gP cs) := by
  simp [stP, DBState.setGame]

theorem stPend_eq : stP [] = stPend := by
  unfold stP DBState.setGame
  have hfun : (fun i => if i = "g1" then some (gP []) else stPend.games i) = stPend.games := by
    funext i
    by_cases h : i = "g1" <;> simp [h, stPend, gP, resC, gPend]
  simp [hfun]

/-- Recording one more confirmation moves `stP cs` to `stP (cs ++ [u])`. -/
theorem confirm_stP (cs : List String) (u : String)
    (hmem : u ∈ (resC cs).team1 ++ (resC cs).team2) (hnew : u ∉ cs) :
    confirmGameResults (stP cs) "g1" u = .ok (stP (cs ++ [u])) := by
  rw [confirmGameResults_ok (stP cs) "g1" u (gP cs) (resC cs) (stP_games cs) rfl rfl
    hmem hnew]
  unfold stP
  rw [setGame_setGame]
  congr 1

/-- First click: "a" confirms; 1 of 4 is no majority, no trigger. -/
theorem handle_confirm_a :
    handleConfirmScore (stP []) (gP []) "a" = (stP ["a"], false) := by
  unfold handleConfirmScore
  simp only [gP_gameId]
  rw [confirm_stP [] "a" (by simp [resC]) (by simp)]
  simp only [gP_results, List.nil_append]
  norm_num [resC]

/-- Second click: "b" confirms; 2 of 4 is exactly half, no trigger. -/
theorem handle_confirm_b :
    handleConfirmScore (stP ["a"]) (gP ["a"]) "b" = (stP ["a", "b"], false) := by
  unfold handleConfirmScore
  simp only [gP_gameId]
  rw [confirm_stP ["a"] "b" (by simp [resC]) (by simp)]
  simp only [gP_results]
  norm_num [resC]

/-- Third click: "c" confirms; 3 of 4 is a strict majority, so the
rating-commit transaction runs and completes the game. -/
theorem handle_confirm_c :
    handleConfirmScore (stP ["a", "b"]) (gP ["a", "b"]) "c" = (stT, true) := by
  have hread : readPlayers (stP ["a", "b", "c"]).users
      ((["a", "b"] : List String) ++ ["c", "d"]) = .ok pdAll := by
    simp [readPlayers, pdAll, stP, stPend, DBState.setGame, Except.map]
  have htx : processEloUpdatesTransactional (stP ["a", "b", "c"]) "g1"
      ["a", "b"] ["c", "d"] 10 5 Sport.basketball
      processGameResults = .ok stT :=
    processEloUpdatesTransactional_ok (stP ["a", "b", "c"]) "g1"
      ["a", "b"] ["c", "d"] 10 5 Sport.basketball
      processGameResults pdAll (gP ["a", "b", "c"]) hread (stP_games _)
  unfold handleConfirmScore
  simp only [gP_gameId]
  rw [confirm_stP ["a", "b"] "c" (by simp [resC]) (by simp)]
  simp only [List.cons_append, List.nil_append, gP_results, gP_sport]
  norm_num [resC]
  rw [htx]

/-- Fourth click: the game is already completed, so the confirmation
call throws and nothing further happens. -/
theorem handle_confirm_d :
    handleConfirmScore stT gT "d" = (stT, false) := by
  have hg : stT.games gT.gameId = some gT := by
    simp [stT, gT, gP_gameId]
  unfold handleConfirmScore confirmGameResults
  rw [hg]
  simp only
  rw [if_pos (by simp [gT, gP, gPend])]

/-- Running the first two confirmations triggers no transaction. -/
theorem confirm_scenario_two :
    (runConfirmCalls stPend "g1" ["a", "b"]).2 = 0 := by
  rw [← stPend_eq]
  simp only [runConfirmCalls, stP_games, handle_confirm_a, handle_confirm_b]
  norm_num

/-- Running all four confirmations triggers the transaction exactly
once, on the third click. -/
theorem confirm_scenario_four :
    (runConfirmCalls stPend "g1" ["a", "b", "c", "d"]).2 = 1 := by
  have hT : stT.games "g1" = some gT := by simp [stT]
  rw [← stPend_eq]
  simp only [runConfirmCalls, stP_games, handle_confirm_a, handle_confirm_b,
    handle_confirm_c, hT, handle_confirm_d]
  norm_num

/-- C2: an eligible confirmation call triggers the rating-commit
transaction iff the confirmation count after the call strictly exceeds
half of |team1 ∪ team2|; in the concrete 4-participant game `gPend`,
two confirmations trigger it zero times and four sequential
confirmations trigger it exactly once — on the third. -/
theorem confirm_majority_trigger (st : DBState) (g : Game) (r : GameResults)
    (actor : String) (hg : st.games g.gameId = some g)
    (hs : g.status = .pending_results) (hres : g.results = some r)
    (hmem : actor ∈ r.team1 ++ r.team2) (hnew : actor ∉ r.confirmedBy)
    (hnd : (r.team1 ++ r.team2).Nodup) :
    ((handleConfirmScore st g actor).2 = true ↔
      2 * (r.confirmedBy.length + 1) > (r.team1 ++ r.team2).dedup.length) ∧
    (runConfirmCalls stPend "g1" ["a", "b"]).2 = 0 ∧
    (runConfirmCalls stPend "g1" ["a", "b", "c", "d"]).2 = 1 := by
  refine ⟨?_, confirm_scenario_two, confirm_scenario_four⟩
  rw [List.Nodup.dedup hnd]
  exact handleConfirmScore_trigger_iff st g r actor hg hs hres hmem hnew

/-- Witness for `confirm_majority_trigger`: in `gPend` with no prior
confirmations, the first confirmation (1 of 4) does not trigger the
transaction, and the full four-click run triggers it exactly once. -/
theorem confirm_majority_trigger_witness :
    (handleConfirmScore stPend gPend "a").2 = false ∧
    (runConfirmCalls stPend "g1" ["a", "b", "c", "d"]).2 = 1 := by
  have h := confirm_majority_trigger stPend gPend ⟨["a", "b"], ["c", "d"], 10, 5, []⟩
    "a" (by simp [stPend, gPend]) rfl rfl (by simp) (by simp) (by decide)
  refine ⟨?_, h.2.2⟩
  cases hb : (handleConfirmScore stPend gPend "a").2 with
  | false => rfl
  | true => exact absurd (h.1.mp hb) (by decide)

end FairPlay
